import Mathlib

/-!
Verification of the authentication core of `src/app.js`: the Passport
LocalStrategy verify callback, the session identity codec
(serializeUser / deserializeUser), the sign-up handler, the log-in
route, and the session middleware configuration, over a shallow
embedding of the program state (the `users` table behind the pg pool).
-/

/-- A row of the `users` table: `SELECT *` returns id, username and the
`password` column, which stores the bcrypt hash (see the sign-up handler,
src/app.js lines 163-175). -/
structure UserRecord where
  id : Nat
  username : String
  password : String
deriving DecidableEq, Repr

/-- The pg connection pool together with the database it reaches.
`users` is the rows of the `users` table in insertion order; `nextId` is
the next value of the serial id column; `failing` is `some cause` when the
store is unreachable or queries fail (connectivity / query failure), in
which case every `pool.query` rejects with that cause. -/
structure Pool where
  users : List UserRecord
  nextId : Nat
  failing : Option String
deriving DecidableEq, Repr

/-- The three parameterized queries the source issues against the pool:
`SELECT * FROM users WHERE username = $1` (line 50), `SELECT * FROM users
WHERE id = $1` (line 99), and `insert into users (username, password)
values ($1, $2)` (line 166). -/
inductive Query where
  | selectByUsername (username : String)
  | selectById (id : Nat)
  | insertUser (username : String) (hash : String)
deriving DecidableEq, Repr

/-- Error message of a unique-constraint violation raised by the store. -/
def duplicateKeyMsg : String :=
  "duplicate key value violates unique constraint users_username_key"

/-- Modelled from the spec: the `users` table schema is not part of src/
(only the queries are); per the spec the store enforces username
uniqueness natively, so a duplicate insert rejects with the constraint
violation and changes nothing.  `pool.query` semantics: a SELECT returns
the matching rows and leaves the table unchanged; a successful INSERT
appends one row with the next serial id. -/
def runQuery (pool : Pool) (q : Query) :
    (Except String (List UserRecord)) × Pool :=
  match pool.failing with
  | some cause => (Except.error cause, pool)
  | none =>
    match q with
    | Query.selectByUsername u =>
        (Except.ok (pool.users.filter (fun r => r.username = u)), pool)
    | Query.selectById i =>
        (Except.ok (pool.users.filter (fun r => r.id = i)), pool)
    | Query.insertUser u h =>
        if pool.users.any (fun r => r.username = u) then
          (Except.error duplicateKeyMsg, pool)
        else
          (Except.ok [],
           { pool with
             users := pool.users ++ [⟨pool.nextId, u, h⟩],
             nextId := pool.nextId + 1 })

/-- Modelled from the spec: bcrypt is an external library (required at
src/app.js line 5), so its hash format is modelled, faithful to the
spec's contract — a self-describing salted hash, embedding the salt, a
different string for each fresh salt.  The salt argument makes the
library's internal randomness explicit. -/
def bcryptHash (plaintext : String) (salt : Nat) : String :=
  String.mk ('$' :: List.replicate salt 'x' ++ '$' :: plaintext.data)

/-- Modelled from the spec: `bcrypt.compare` recomputes using the salt
embedded in the hash string and checks the plaintext against it; it is
total — a malformed hash yields `false`, it never throws. -/
def bcryptCompare (plaintext : String) (hash : String) : Bool :=
  match hash.data with
  | [] => false
  | c :: rest =>
    decide (c = '$') &&
      decide (rest.dropWhile (fun ch => ch = 'x') = '$' :: plaintext.data)

/-- Result of the LocalStrategy verify callback, as delivered through
`done`: `done(null, user)`, `done(null, false, message)`, or
`done(err)`. -/
inductive AuthResult where
  | success (user : UserRecord)
  | failure (message : String)
  | error (cause : String)
deriving DecidableEq, Repr

/-- The LocalStrategy verify callback (src/app.js lines 47-77), state
passing over the pool, parameterized over the password comparison so
that non-invocation of hashing is expressible.  It queries the users
table by username, takes `rows[0]`, fails with "Incorrect username" when
absent, otherwise compares, failing with "Incorrect password" on
mismatch; a query error is caught and passed to `done(err)`. -/
def localStrategyVerify (compare : String → String → Bool)
    (pool : Pool) (username password : String) : AuthResult × Pool :=
  let qr := runQuery pool (Query.selectByUsername username)
  match qr.1 with
  | Except.error err => (AuthResult.error err, qr.2)
  | Except.ok rows =>
    match rows.head? with
    | none => (AuthResult.failure "Incorrect username", qr.2)
    | some user =>
      if compare password user.password then
        (AuthResult.success user, qr.2)
      else
        (AuthResult.failure "Incorrect password", qr.2)

/-- The authenticator as wired in the source: the verify callback with
`bcrypt.compare` (src/app.js line 66). -/
def authenticate (pool : Pool) (username password : String) :
    AuthResult × Pool :=
  localStrategyVerify bcryptCompare pool username password

/-- `passport.serializeUser` (src/app.js lines 89-91): stores exactly
`user.id` in the session. -/
def serializeUser (user : UserRecord) : Nat :=
  user.id

/-- `passport.deserializeUser` (src/app.js lines 97-108): looks the id up
in the users table, takes `rows[0]` and yields it via `done(null, user)`
— also when undefined, i.e. `Except.ok none`; a query error is caught
and passed to `done(err)`. -/
def deserializeUser (pool : Pool) (id : Nat) :
    Except String (Option UserRecord) :=
  match (runQuery pool (Query.selectById id)).1 with
  | Except.ok rows => Except.ok rows.head?
  | Except.error err => Except.error err

/-- Outcome of an Express handler: a redirect to a target, or an error
handed to `next(error)`. -/
inductive HandlerResult where
  | redirect (target : String)
  | nextError (cause : String)
deriving DecidableEq, Repr

/-- The POST /sign-up handler (src/app.js lines 163-175): bcrypt-hash the
password (cost 10, fresh salt made explicit), insert username and hash,
redirect to "/" on success; on error, pass it to `next(error)`. -/
def signUpHandler (pool : Pool) (username password : String)
    (salt : Nat) : HandlerResult × Pool :=
  let hashed := bcryptHash password salt
  let qr := runQuery pool (Query.insertUser username hashed)
  match qr.1 with
  | Except.ok _ => (HandlerResult.redirect "/", qr.2)
  | Except.error err => (HandlerResult.nextError err, qr.2)

/-- The redirect options given to `passport.authenticate("local", ...)`
in the POST /log-in route (src/app.js lines 200-206). -/
structure AuthenticateOptions where
  successRedirect : String
  failureRedirect : String
deriving DecidableEq, Repr

/-- `passport.authenticate` middleware semantics: run the strategy; on
`done(null, user)` redirect to `successRedirect`, on
`done(null, false, ...)` redirect to `failureRedirect`, on `done(err)`
pass the error on. -/
def passportAuthenticate (opts : AuthenticateOptions) (pool : Pool)
    (username password : String) : HandlerResult × Pool :=
  let ar := authenticate pool username password
  match ar.1 with
  | AuthResult.success _ => (HandlerResult.redirect opts.successRedirect, ar.2)
  | AuthResult.failure _ => (HandlerResult.redirect opts.failureRedirect, ar.2)
  | AuthResult.error cause => (HandlerResult.nextError cause, ar.2)

/-- The POST /log-in handler: `passport.authenticate("local",
{ successRedirect: "/", failureRedirect: "/" })` (src/app.js lines
200-206). -/
def logInHandler (pool : Pool) (username password : String) :
    HandlerResult × Pool :=
  passportAuthenticate ⟨"/", "/"⟩ pool username password

/-- `process.env` as seen by the program. -/
def Env : Type := String → Option String

/-- The options object passed to `session(...)` at src/app.js line 138.
The source also sets `resave: false` and a third flag set to `false`
(for not saving empty sessions); the latter is omitted here as no claim
concerns it.  The secret is the string literal `"cats"` in the source. -/
structure SessionOptions where
  secret : String
  resave : Bool
deriving DecidableEq, Repr

/-- The session middleware configuration as a function of the process
environment (src/app.js line 138:
`session({ secret: "cats", resave: false, ... })`). -/
def sessionOptions (_env : Env) : SessionOptions :=
  { secret := "cats", resave := false }

/-- The pg pool configuration (src/app.js lines 34-40), a function of
the process environment: host, user, database, password, port are read
from `process.env`. -/
structure PoolConfig where
  host : Option String
  user : Option String
  database : Option String
  password : Option String
  port : Option String
deriving DecidableEq, Repr

/-- `new Pool({...})` configuration from src/app.js lines 34-40. -/
def poolConfig (env : Env) : PoolConfig :=
  { host := env "DB_HOST"
    user := env "DB_USER"
    database := env "DB_NAME"
    password := env "DB_PASSWORD"
    port := env "DB_PORT" }

/-- The store lookup the verify callback performs: the first row of
`SELECT * FROM users WHERE username = $1` (src/app.js lines 50-54). -/
def findByUsername (pool : Pool) (username : String) : Option UserRecord :=
  (pool.users.filter (fun r => r.username = username)).head?

/-- The store lookup deserializeUser performs: the first row of
`SELECT * FROM users WHERE id = $1` (src/app.js lines 99-102). -/
def findById (pool : Pool) (id : Nat) : Option UserRecord :=
  (pool.users.filter (fun r => r.id = id)).head?

/-- A stored user: "alice" registered with password "secret1". -/
def alice : UserRecord :=
  ⟨1, "alice", bcryptHash "secret1" 0⟩

/-- A reachable store holding exactly alice. -/
def okPool : Pool :=
  ⟨[alice], 2, none⟩

/-- The same store behind a failing connection. -/
def downPool : Pool :=
  ⟨[alice], 2, some "connection refused"⟩

/-- A reachable, empty store. -/
def emptyPool : Pool :=
  ⟨[], 1, none⟩

/-! ### Helper lemmas -/

lemma bcryptHash_data (p : String) (s : Nat) :
    (bcryptHash p s).data = '$' :: (List.replicate s 'x' ++ '$' :: p.data) :=
  rfl

lemma dropWhile_x_replicate_append (s : Nat) (l : List Char) :
    List.dropWhile (fun ch => ch = 'x')
      (List.replicate s 'x' ++ '$' :: l) = '$' :: l := by
  induction s with
  | zero => simp [List.dropWhile]
  | succ n ih => simp [List.replicate, List.dropWhile, ih]

lemma bcryptCompare_bcryptHash (p : String) (s : Nat) :
    bcryptCompare p (bcryptHash p s) = true := by
  simp [bcryptCompare, bcryptHash_data, dropWhile_x_replicate_append]

lemma bcryptCompare_bcryptHash_ne (p p2 : String) (s : Nat) (h : p ≠ p2) :
    bcryptCompare p (bcryptHash p2 s) = false := by
  simp only [bcryptCompare, bcryptHash_data, dropWhile_x_replicate_append]
  simp only [Bool.and_eq_false_iff, decide_eq_false_iff_not]
  right
  intro hc
  exact h (congrArg String.mk (List.cons_injective hc)).symm

lemma bcryptHash_injective_salt (p : String) (s1 s2 : Nat) (h : s1 ≠ s2) :
    bcryptHash p s1 ≠ bcryptHash p s2 := by
  intro he
  have hd := congrArg String.data he
  rw [bcryptHash_data, bcryptHash_data] at hd
  have hl := congrArg List.length hd
  simp [List.length_append, List.length_replicate] at hl
  exact h hl

lemma bcryptCompare_eq_true_iff (p h : String) :
    bcryptCompare p h = true ↔ ∃ s, h = bcryptHash p s := by
  constructor
  · obtain ⟨l⟩ := h
    cases l with
    | nil => intro hc; simp [bcryptCompare] at hc
    | cons c rest =>
      intro hc
      simp only [bcryptCompare, Bool.and_eq_true, decide_eq_true_eq] at hc
      obtain ⟨hdollar, hdrop⟩ := hc
      refine ⟨(rest.takeWhile (fun ch => ch = 'x')).length, ?_⟩
      have hall : ∀ b ∈ rest.takeWhile (fun ch => ch = 'x'), b = 'x' := by
        intro b hb
        simpa using List.mem_takeWhile_imp hb
      have ht : rest.takeWhile (fun ch => ch = 'x') =
          List.replicate (rest.takeWhile (fun ch => ch = 'x')).length 'x' := by
        rw [List.eq_replicate_iff]
        exact ⟨rfl, hall⟩
      have hsplit := List.takeWhile_append_dropWhile
        (p := fun ch => decide (ch = 'x')) (l := rest)
      unfold bcryptHash
      rw [List.cons_append, ← ht, ← hdrop, hsplit, hdollar]
  · rintro ⟨s, rfl⟩
    exact bcryptCompare_bcryptHash p s

lemma filter_id_singleton (r : UserRecord) (l : List UserRecord)
    (hmem : r ∈ l) (hids : l.Pairwise (fun a b => a.id ≠ b.id)) :
    l.filter (fun x => x.id = r.id) = [r] := by
  induction l with
  | nil => cases hmem
  | cons a l ih =>
    rcases List.pairwise_cons.mp hids with ⟨hhead, htail⟩
    rcases List.mem_cons.mp hmem with rfl | hmem2
    · have hall : l.filter (fun x => x.id = r.id) = [] := by
        rw [List.filter_eq_nil_iff]
        intro b hb
        simpa using fun hEq => hhead b hb hEq.symm
      simp [List.filter_cons, hall]
    · have hne : a.id ≠ r.id := hhead r hmem2
      simp [List.filter_cons, hne, ih hmem2 htail]

lemma localStrategyVerify_eq (cmp : String → String → Bool) (pool : Pool)
    (u p : String) :
    localStrategyVerify cmp pool u p =
      match pool.failing with
      | some cause => (AuthResult.error cause, pool)
      | none =>
        match findByUsername pool u with
        | none => (AuthResult.failure "Incorrect username", pool)
        | some user =>
          if cmp p user.password then (AuthResult.success user, pool)
          else (AuthResult.failure "Incorrect password", pool) := by
  obtain ⟨us, ni, fl⟩ := pool
  cases fl <;> rfl

lemma deserializeUser_eq (pool : Pool) (id : Nat) :
    deserializeUser pool id =
      match pool.failing with
      | some cause => Except.error cause
      | none => Except.ok (findById pool id) := by
  obtain ⟨us, ni, fl⟩ := pool
  cases fl <;> rfl

lemma signUpHandler_eq (pool : Pool) (u p : String) (salt : Nat) :
    signUpHandler pool u p salt =
      match pool.failing with
      | some cause => (HandlerResult.nextError cause, pool)
      | none =>
        if pool.users.any (fun r => r.username = u) then
          (HandlerResult.nextError duplicateKeyMsg, pool)
        else
          (HandlerResult.redirect "/",
           { pool with
             users := pool.users ++ [⟨pool.nextId, u, bcryptHash p salt⟩],
             nextId := pool.nextId + 1 }) := by
  obtain ⟨us, ni, fl⟩ := pool
  cases fl with
  | none =>
    by_cases hany : us.any (fun r => r.username = u) = true
    · simp [signUpHandler, runQuery, hany]
    · simp [signUpHandler, runQuery, hany]
  | some c => rfl

/-! ### Claim theorems -/

/-- C1: authenticate returns Failure("Incorrect username") when the store
lookup by username finds no record — and then the hash verification is
never invoked (the result is the same for every comparison function);
when a record is found and verify is false it returns
Failure("Incorrect password"); when verify is true it returns
Success(record); and an error raised by the store lookup is returned as
Error(cause) rather than thrown past the boundary. -/
theorem authenticate_classifies (pool : Pool)
    (username password cause : String) (r : UserRecord) :
    (pool.failing = some cause →
      authenticate pool username password = (AuthResult.error cause, pool)) ∧
    (pool.failing = none → findByUsername pool username = none →
      ∀ cmp, localStrategyVerify cmp pool username password =
        (AuthResult.failure "Incorrect username", pool)) ∧
    (pool.failing = none → findByUsername pool username = some r →
      bcryptCompare password r.password = false →
      authenticate pool username password =
        (AuthResult.failure "Incorrect password", pool)) ∧
    (pool.failing = none → findByUsername pool username = some r →
      bcryptCompare password r.password = true →
      authenticate pool username password = (AuthResult.success r, pool)) := by
  refine ⟨?_, ?_, ?_, ?_⟩
  · intro hf
    simp [authenticate, localStrategyVerify_eq, hf]
  · intro hf hnone cmp
    simp [localStrategyVerify_eq, hf, hnone]
  · intro hf hsome hcmp
    simp [authenticate, localStrategyVerify_eq, hf, hsome, hcmp]
  · intro hf hsome hcmp
    simp [authenticate, localStrategyVerify_eq, hf, hsome, hcmp]

/-- Closed instance of authenticate_classifies: all four branches
evaluated on concrete stores — note the unknown-username branch is
checked with a comparison function that would accept anything, showing
hashing is not consulted. -/
theorem authenticate_classifies_witness :
    (downPool.failing = some "connection refused" ∧
      authenticate downPool "alice" "secret1" =
        (AuthResult.error "connection refused", downPool)) ∧
    (okPool.failing = none ∧ findByUsername okPool "bob" = none ∧
      localStrategyVerify (fun _ _ => true) okPool "bob" "pw" =
        (AuthResult.failure "Incorrect username", okPool)) ∧
    (findByUsername okPool "alice" = some alice ∧
      bcryptCompare "wrong" alice.password = false ∧
      authenticate okPool "alice" "wrong" =
        (AuthResult.failure "Incorrect password", okPool)) ∧
    (bcryptCompare "secret1" alice.password = true ∧
      authenticate okPool "alice" "secret1" =
        (AuthResult.success alice, okPool)) :=
  ⟨⟨rfl, (authenticate_classifies downPool "alice" "secret1"
      "connection refused" alice).1 rfl⟩,
   ⟨rfl, by decide, (authenticate_classifies okPool "bob" "pw" "" alice).2.1
      rfl (by decide) (fun _ _ => true)⟩,
   ⟨by decide, by decide, (authenticate_classifies okPool "alice" "wrong" ""
      alice).2.2.1 rfl (by decide) (by decide)⟩,
   ⟨by decide, (authenticate_classifies okPool "alice" "secret1" ""
      alice).2.2.2 rfl (by decide) (by decide)⟩⟩

/-- C8: authenticate performs no writes to the store — the pool after
the call equals the pool before it, whatever the result, and for any
comparison function. -/
theorem authenticate_store_readonly (pool : Pool) (username password : String) :
    (authenticate pool username password).2 = pool ∧
    ∀ cmp, (localStrategyVerify cmp pool username password).2 = pool := by
  have h : ∀ cmp, (localStrategyVerify cmp pool username password).2 = pool := by
    intro cmp
    rw [localStrategyVerify_eq]
    cases hpf : pool.failing with
    | some c => simp
    | none =>
      cases hfb : findByUsername pool username with
      | none => simp
      | some r => by_cases hc : cmp password r.password <;> simp [hc]
  exact ⟨h bcryptCompare, h⟩

/-- C2: for every record currently in the store (reachable, ids unique
as a serial primary key makes them), serialize returns exactly the
record's id, and deserialize looks that id up and yields the record:
deserialize(serialize(record)) = record. -/
theorem serializeUser_deserializeUser_roundtrip (pool : Pool)
    (r : UserRecord) (hok : pool.failing = none) (hmem : r ∈ pool.users)
    (hids : pool.users.Pairwise (fun a b => a.id ≠ b.id)) :
    serializeUser r = r.id ∧
    deserializeUser pool (serializeUser r) = Except.ok (some r) := by
  refine ⟨rfl, ?_⟩
  rw [deserializeUser_eq]
  simp [hok, findById, serializeUser,
    filter_id_singleton r pool.users hmem hids]

/-- Closed instance of the round-trip on the concrete store holding
alice. -/
theorem serializeUser_deserializeUser_roundtrip_witness :
    okPool.failing = none ∧ alice ∈ okPool.users ∧
    okPool.users.Pairwise (fun a b => a.id ≠ b.id) ∧
    (serializeUser alice = alice.id ∧
      deserializeUser okPool (serializeUser alice) = Except.ok (some alice)) :=
  ⟨rfl, by decide, by decide,
   serializeUser_deserializeUser_roundtrip okPool alice rfl
     (by decide) (by decide)⟩

/-- C4: deserializing a session token whose id matches no record in a
reachable store yields Ok(none) — no authenticated identity — and not an
error. -/
theorem deserializeUser_stale_token (pool : Pool) (id : Nat)
    (hok : pool.failing = none) (habs : ∀ r ∈ pool.users, r.id ≠ id) :
    deserializeUser pool id = Except.ok none := by
  have hfil : pool.users.filter (fun r => r.id = id) = [] := by
    rw [List.filter_eq_nil_iff]
    intro r hr
    simpa using habs r hr
  rw [deserializeUser_eq]
  simp [hok, findById, hfil]

/-- Closed instance: token 42 resolves to no record of the concrete
store and deserializes to Ok(none). -/
theorem deserializeUser_stale_token_witness :
    okPool.failing = none ∧ (∀ r ∈ okPool.users, r.id ≠ 42) ∧
    deserializeUser okPool 42 = Except.ok none :=
  ⟨rfl, by decide, deserializeUser_stale_token okPool 42 rfl (by decide)⟩

/-- C3: if register succeeds — the username was free and the store
reachable, so the hash is stored — then authenticate with the same
credentials immediately afterwards, with no intervening store change,
returns Success of the freshly inserted record. -/
theorem register_then_authenticate (pool : Pool) (u p : String) (salt : Nat)
    (hok : pool.failing = none)
    (hfresh : ∀ r ∈ pool.users, r.username ≠ u) :
    (signUpHandler pool u p salt).1 = HandlerResult.redirect "/" ∧
    (authenticate (signUpHandler pool u p salt).2 u p).1 =
      AuthResult.success ⟨pool.nextId, u, bcryptHash p salt⟩ := by
  have hany : pool.users.any (fun r => r.username = u) = false := by
    rw [List.any_eq_false]
    intro r hr
    simpa using hfresh r hr
  have hfil : pool.users.filter (fun r => r.username = u) = [] := by
    rw [List.filter_eq_nil_iff]
    intro r hr
    simpa using hfresh r hr
  have hsu : signUpHandler pool u p salt =
      (HandlerResult.redirect "/",
       { pool with
         users := pool.users ++ [⟨pool.nextId, u, bcryptHash p salt⟩],
         nextId := pool.nextId + 1 }) := by
    rw [signUpHandler_eq]
    simp [hok, hany]
  rw [hsu]
  refine ⟨rfl, ?_⟩
  simp [authenticate, localStrategyVerify_eq, hok, findByUsername,
    List.filter_append, hfil, bcryptCompare_bcryptHash]

/-- Closed instance: registering "bob" with "hunter2" on the empty store
redirects to "/" and an immediate authenticate succeeds. -/
theorem register_then_authenticate_witness :
    emptyPool.failing = none ∧ (∀ r ∈ emptyPool.users, r.username ≠ "bob") ∧
    ((signUpHandler emptyPool "bob" "hunter2" 5).1 =
        HandlerResult.redirect "/" ∧
      (authenticate (signUpHandler emptyPool "bob" "hunter2" 5).2
          "bob" "hunter2").1 =
        AuthResult.success ⟨emptyPool.nextId, "bob", bcryptHash "hunter2" 5⟩) :=
  ⟨rfl, by decide,
   register_then_authenticate emptyPool "bob" "hunter2" 5 rfl (by decide)⟩

/-- C5: registering a username already present in a reachable store
surfaces the store's unique-constraint violation — the distinguishable
duplicate-key error, not a generic failure — and leaves the store, hence
the originally stored hash, unchanged. -/
theorem signUpHandler_duplicate_username (pool : Pool) (u p2 : String)
    (salt : Nat) (hok : pool.failing = none)
    (hdup : ∃ r ∈ pool.users, r.username = u) :
    (signUpHandler pool u p2 salt).1 =
      HandlerResult.nextError duplicateKeyMsg ∧
    (signUpHandler pool u p2 salt).2 = pool := by
  have hany : pool.users.any (fun r => r.username = u) = true := by
    rw [List.any_eq_true]
    obtain ⟨r, hr, he⟩ := hdup
    exact ⟨r, hr, by simpa using he⟩
  rw [signUpHandler_eq]
  simp [hok, hany]

/-- Closed instance of the spec scenario: a second registration of
"alice" with a different password yields the duplicate-key error and the
store still holds alice's original hash. -/
theorem signUpHandler_duplicate_username_witness :
    okPool.failing = none ∧ (∃ r ∈ okPool.users, r.username = "alice") ∧
    ((signUpHandler okPool "alice" "secret2" 7).1 =
        HandlerResult.nextError duplicateKeyMsg ∧
      (signUpHandler okPool "alice" "secret2" 7).2 = okPool) :=
  ⟨rfl, by decide,
   signUpHandler_duplicate_username okPool "alice" "secret2" 7 rfl (by decide)⟩

/-- C6: two hash calls on the same plaintext with distinct fresh salts
yield two different hash strings, verify accepts the plaintext against
each of them, and verify rejects a hash of any other plaintext
(plaintext comparison is exact, hence case-sensitive). -/
theorem bcryptHash_salted_verify (p p2 : String) (s s1 s2 : Nat)
    (hsalts : s1 ≠ s2) (hne : p ≠ p2) :
    bcryptHash p s1 ≠ bcryptHash p s2 ∧
    bcryptCompare p (bcryptHash p s1) = true ∧
    bcryptCompare p (bcryptHash p s2) = true ∧
    bcryptCompare p (bcryptHash p2 s) = false :=
  ⟨bcryptHash_injective_salt p s1 s2 hsalts,
   bcryptCompare_bcryptHash p s1,
   bcryptCompare_bcryptHash p s2,
   bcryptCompare_bcryptHash_ne p p2 s hne⟩

/-- Closed instance: "secret" hashed under salts 0 and 1 gives distinct
verifying hashes, and "secret" does not verify against a hash of
"Secret" (case differs). -/
theorem bcryptHash_salted_verify_witness :
    (0 : Nat) ≠ 1 ∧ ("secret" : String) ≠ "Secret" ∧
    (bcryptHash "secret" 0 ≠ bcryptHash "secret" 1 ∧
      bcryptCompare "secret" (bcryptHash "secret" 0) = true ∧
      bcryptCompare "secret" (bcryptHash "secret" 1) = true ∧
      bcryptCompare "secret" (bcryptHash "Secret" 3) = false) :=
  ⟨by decide, by decide,
   bcryptHash_salted_verify "secret" "Secret" 3 0 1 (by decide) (by decide)⟩

/-- C9: verify is a total function of plaintext and hash string — it
accepts exactly the hashes produced from the plaintext, and on any
malformed hash string (one not shaped like a hash: it does not even open
with the format marker) it returns false rather than throwing. -/
theorem bcryptCompare_total_malformed (p h : String) :
    (bcryptCompare p h = true ↔ ∃ s, h = bcryptHash p s) ∧
    (h.data.head? ≠ some '$' → bcryptCompare p h = false) := by
  refine ⟨bcryptCompare_eq_true_iff p h, ?_⟩
  intro hmal
  cases hb : bcryptCompare p h with
  | false => rfl
  | true =>
    exfalso
    rcases (bcryptCompare_eq_true_iff p h).mp hb with ⟨s, rfl⟩
    have hhead : (bcryptHash p s).data.head? = some '$' := by
      rw [bcryptHash_data]
      rfl
    exact hmal hhead

/-- Closed instance: "nothash" is malformed and verify returns false on
it. -/
theorem bcryptCompare_total_malformed_witness :
    ("nothash" : String).data.head? ≠ some '$' ∧
    bcryptCompare "a" "nothash" = false :=
  ⟨by decide, (bcryptCompare_total_malformed "a" "nothash").2 (by decide)⟩

/-- C7, counterexample: the claim that the session-signing secret is
sourced from the process environment is false — no environment key
determines the secret, because the configured secret is the literal
"cats" whatever the environment holds. -/
theorem sessionSecret_not_from_env :
    ¬ ∃ key : String, ∀ (env : Env) (v : String),
        env key = some v → (sessionOptions env).secret = v := by
  rintro ⟨key, hk⟩
  have h : ("cats" : String) = "supersecret" :=
    hk (fun _ => some "supersecret") "supersecret" rfl
  exact absurd h (by decide)

/-- C7, amended: the session middleware options are hardcoded in the
source — the signing secret is the string literal "cats", independent of
the process environment (the database parameters, by contrast, are read
from it, see poolConfig). -/
theorem sessionOptions_hardcoded (env : Env) :
    sessionOptions env = { secret := "cats", resave := false } ∧
    poolConfig env =
      { host := env "DB_HOST", user := env "DB_USER",
        database := env "DB_NAME", password := env "DB_PASSWORD",
        port := env "DB_PORT" } :=
  ⟨rfl, rfl⟩

/-- C10: the POST /log-in response is a redirect to "/" whether
authentication succeeds or fails (with either failure reason), and the
redirect targets of any two non-erroring runs coincide — the response
destination discloses nothing about the outcome. -/
theorem logInHandler_uniform_redirect (pool pool2 : Pool)
    (u p u2 p2 : String) (r r2 : UserRecord) (m m2 : String) :
    ((authenticate pool u p).1 = AuthResult.success r →
      (logInHandler pool u p).1 = HandlerResult.redirect "/") ∧
    ((authenticate pool u p).1 = AuthResult.failure m →
      (logInHandler pool u p).1 = HandlerResult.redirect "/") ∧
    ((authenticate pool u p).1 = AuthResult.success r ∨
        (authenticate pool u p).1 = AuthResult.failure m →
      (authenticate pool2 u2 p2).1 = AuthResult.success r2 ∨
        (authenticate pool2 u2 p2).1 = AuthResult.failure m2 →
      (logInHandler pool u p).1 = (logInHandler pool2 u2 p2).1) := by
  refine ⟨?_, ?_, ?_⟩
  · intro h
    simp [logInHandler, passportAuthenticate, h]
  · intro h
    simp [logInHandler, passportAuthenticate, h]
  · rintro (h1 | h1) (h2 | h2) <;>
      simp [logInHandler, passportAuthenticate, h1, h2]

/-- Closed instance: a successful login as alice and a failed login as
unknown "bob" produce the identical redirect to "/". -/
theorem logInHandler_uniform_redirect_witness :
    (authenticate okPool "alice" "secret1").1 = AuthResult.success alice ∧
    (authenticate okPool "bob" "pw").1 =
      AuthResult.failure "Incorrect username" ∧
    (logInHandler okPool "alice" "secret1").1 = HandlerResult.redirect "/" ∧
    (logInHandler okPool "bob" "pw").1 = HandlerResult.redirect "/" ∧
    (logInHandler okPool "alice" "secret1").1 =
      (logInHandler okPool "bob" "pw").1 :=
  ⟨by decide, by decide,
   (logInHandler_uniform_redirect okPool okPool "alice" "secret1" "bob" "pw"
      alice alice "m" "m").1 (by decide),
   (logInHandler_uniform_redirect okPool okPool "bob" "pw" "alice" "secret1"
      alice alice "Incorrect username" "m").2.1 (by decide),
   (logInHandler_uniform_redirect okPool okPool "alice" "secret1" "bob" "pw"
      alice alice "m" "Incorrect username").2.2
     (Or.inl (by decide)) (Or.inr (by decide))⟩
